import Mathlib

namespace YoutubeRss

/-- A stored video document, as used by the diff engine: the projection of the
Mongo `videos` collection document onto the fields the aggregation pipeline in
`read_last_video_ids_for_channel_from_db` reads (`id`, `snippet.channelId`,
`snippet.publishedAt`).  Timestamps are modelled as naturals. -/
structure Video where
  id : String
  channelId : String
  publishedAt : Nat
deriving DecidableEq

/-- One `atom:entry` of a channel feed document, holding its `yt:videoId` text
node (the only field the code consumes). -/
structure RssEntry where
  videoId : String
deriving DecidableEq

/-- `youtube.exeptions.RequestError`: common exception for request errors
(connection failures and HTTP status errors), carrying a message. -/
structure RequestError where
  msg : String
deriving DecidableEq

/-- `_get_video_ids_from_rss` (src/youtube/youtube.py): the xpath query
`//atom:entry/yt:videoId/text()` returns the text of each entry's videoId
element in document order; the function converts each to `str` and returns
the tuple.  No deduplication is performed. -/
def _get_video_ids_from_rss (rss_feed : List RssEntry) : List String :=
  rss_feed.map (fun e => e.videoId)

/-- Insertion step for the descending sort by `snippet.publishedAt` performed
by the `$sort: publishedAt: -1` stage of the aggregation pipeline. -/
def insertByPublishedDesc (v : Video) : List Video → List Video
  | [] => [v]
  | w :: ws =>
    if v.publishedAt ≥ w.publishedAt then v :: w :: ws
    else w :: insertByPublishedDesc v ws

/-- Descending sort by publish time (stable; MongoDB leaves the relative order
of equal keys unspecified, the model fixes the stable order). -/
def sortByPublishedDesc (l : List Video) : List Video :=
  l.foldr insertByPublishedDesc []

/-- `read_last_video_ids_for_channel_from_db` (src/youtube/db.py): the
aggregation pipeline projects, matches on `snippet.channelId`, sorts by
`snippet.publishedAt` descending, limits to `limit` documents and pushes the
`id` fields in that order. -/
def read_last_video_ids_for_channel_from_db
    (videos : List Video) (channel_id : String) (limit : Nat) : List String :=
  ((sortByPublishedDesc
      (videos.filter (fun v => v.channelId == channel_id))).take limit).map
    (fun v => v.id)

/-- `_get_channel_new_video_ids` (src/youtube/youtube.py): fetch the channel's
feed (`_request_channel_rss_feed`, modelled by the oracle `feed`, which either
yields the feed document or raises a `RequestError`), extract the video ids,
read the last 20 known ids from the db and return
`tuple(set(rss_video_ids) - set(ids_in_db))`.  Python's set difference is
modelled membership-faithfully as first-occurrence-order dedup plus filter
(the iteration order of a Python set is unspecified). -/
def _get_channel_new_video_ids
    (feed : String → Except RequestError (List RssEntry))
    (videos : List Video) (channel_id : String) :
    Except RequestError (List String) :=
  match feed channel_id with
  | .error e => .error e
  | .ok rss_feed =>
    let rss_video_ids := _get_video_ids_from_rss rss_feed
    let ids_in_db := read_last_video_ids_for_channel_from_db videos channel_id 20
    .ok (rss_video_ids.dedup.filter (fun i => decide (i ∉ ids_in_db)))

/-- Outcome of one per-channel task as materialized by
`asyncio.gather(*tasks, return_exceptions=True)`: the task either returned a
tuple of ids, raised a `RequestError`, or raised an exception of some other
type (possible only through a logic bug in a task, but the aggregation loop
must be modelled over all three shapes). -/
inductive TaskResult where
  | ok (ids : List String)
  | requestError (e : RequestError)
  | otherError
deriving DecidableEq

/-- The per-channel task results for the given channels, in order: a task in
the source either returns the tuple from `_get_channel_new_video_ids` or
raises the `RequestError` that call raised. -/
def taskResults
    (feed : String → Except RequestError (List RssEntry))
    (videos : List Video) (channel_ids : List String) : List TaskResult :=
  channel_ids.map (fun cid =>
    match _get_channel_new_video_ids feed videos cid with
    | .ok ids => .ok ids
    | .error e => .requestError e)

/-- One iteration of the aggregation loop of
`_get_new_video_ids_for_all_channels`: `isinstance(res, RequestError)` appends
to `exeptions`, `isinstance(res, tuple)` extends `video_ids`, anything else is
skipped. -/
def collectStep (acc : List String × List RequestError) (res : TaskResult) :
    List String × List RequestError :=
  match res with
  | .requestError e => (acc.1, acc.2 ++ [e])
  | .ok ids => (acc.1 ++ ids, acc.2)
  | .otherError => acc

/-- The aggregation loop over the gathered results, returning the accumulated
`video_ids` and `exeptions` lists. -/
def collectResults (results : List TaskResult) :
    List String × List RequestError :=
  results.foldl collectStep ([], [])

/-- `_check_if_all_requests_failed` (src/youtube/youtube.py) only logs; the
returned boolean models whether the total-outage message was logged
(`len(exeptions) == len(results)`). -/
def _check_if_all_requests_failed
    (results : List TaskResult) (exeptions : List RequestError) : Bool :=
  exeptions.length == results.length

/-- The aggregation phase of `_get_new_video_ids_for_all_channels` viewed as a
fallible computation: `gather` is called with `return_exceptions=True`, so
every task exception arrives as a value in `results`, and the loop body
contains no raise statement — hence the only possible outcome is a normal
return of the accumulated ids.  The `Except` wrapper records that no
propagation path exists. -/
def aggregateOutcomes (results : List TaskResult) : Except Unit (List String) :=
  .ok (collectResults results).1

/-- `_get_new_video_ids_for_all_channels` (src/youtube/youtube.py): run one
task per channel, gather with `return_exceptions=True`, aggregate, and check
for total outage.  First component: the returned `video_ids`; second
component: whether the total-outage condition was logged. -/
def _get_new_video_ids_for_all_channels
    (feed : String → Except RequestError (List RssEntry))
    (videos : List Video) (channel_ids : List String) : List String × Bool :=
  let results := taskResults feed videos channel_ids
  let collected := collectResults results
  (collected.1, _check_if_all_requests_failed results collected.2)

/-- The ids contributed by one task result (a tuple extends `video_ids`,
anything else contributes nothing). -/
def okIds : TaskResult → List String
  | .ok ids => ids
  | _ => []

/-- The `RequestError` recorded for one task result, if any. -/
def errOf : TaskResult → Option RequestError
  | .requestError e => some e
  | _ => none

lemma collect_go (rs : List TaskResult) (acc : List String × List RequestError) :
    rs.foldl collectStep acc =
      (acc.1 ++ rs.flatMap okIds, acc.2 ++ rs.filterMap errOf) := by
  induction rs generalizing acc with
  | nil => simp
  | cons r rs ih =>
    cases r <;> simp [collectStep, okIds, errOf, ih]

lemma collectResults_eq (rs : List TaskResult) :
    collectResults rs = (rs.flatMap okIds, rs.filterMap errOf) := by
  simpa using collect_go rs ([], [])

/-- One `deque.append` on a `collections.deque` with `maxlen = cap`: the
element is appended at the tail and, if the length now exceeds the capacity,
the head is discarded. -/
def dequePush (cap : Nat) (d : List String) (x : String) : List String :=
  let d2 := d ++ [x]
  if cap < d2.length then d2.tail else d2

/-- `deque.extend` on a `deque` with `maxlen = cap`: elements are appended one
at a time, evicting from the head on overflow. -/
def dequeExtend (cap : Nat) (d : List String) (xs : List String) : List String :=
  xs.foldl (dequePush cap) d

/-- `load_rss_deque_from_db` (src/youtube/db.py; duplicated as
`_load_rss_deque_from_db` in src/youtube/rss.py): read the singleton
`rss_field` document (modelled as the optional stored id list), create
`deque(maxlen=rss_len)` and extend it with the stored ids; an absent document
yields the empty deque. -/
def load_rss_deque_from_db (stored : Option (List String)) (rss_len : Nat) :
    List String :=
  match stored with
  | some video_ids => dequeExtend rss_len [] video_ids
  | none => []

/-- `save_rss_deque_to_db` (src/youtube/db.py; duplicated as
`_save_rss_deque_to_db` in src/youtube/rss.py): overwrite the singleton
document's `deque` field with the current buffer contents via an upsert.  The
result is the stored state after the write. -/
def save_rss_deque_to_db (rss_deque : List String) : Option (List String) :=
  some rss_deque

/-- A stored subscription document, projected onto its uniqueness key
`snippet.resourceId.channelId` plus the remaining fields collapsed into one
opaque payload. -/
structure Subscription where
  channelId : String
  payload : String
deriving DecidableEq

/-- One `UpdateOne(filter=channelId, update=$setOnInsert, upsert=True)` of
`save_subscriptions_to_db`: if some stored document matches the channel id,
`$setOnInsert` changes nothing; otherwise the document is inserted. -/
def upsertSetOnInsert (store : List Subscription) (sub : Subscription) :
    List Subscription :=
  if store.any (fun d => d.channelId == sub.channelId) then store
  else store ++ [sub]

/-- `save_subscriptions_to_db` (src/youtube/db.py): an ordered `bulk_write` of
one insert-if-absent upsert per subscription. -/
def save_subscriptions_to_db
    (store : List Subscription) (subscriptions : List Subscription) :
    List Subscription :=
  subscriptions.foldl upsertSetOnInsert store

/-- Lookup of the stored subscription document for a channel id (the first
document matching the `UpdateOne` filter). -/
def findByChannel (store : List Subscription) (channel_id : String) :
    Option Subscription :=
  store.find? (fun d => d.channelId == channel_id)

/-- `schemas.VideoItem` abstracted onto its uniqueness key `id` plus the
remaining metadata fields collapsed into one opaque field; equality is
field-wise, as for the pydantic model. -/
structure VideoItem where
  id : String
  snippet : String
deriving DecidableEq

/-- `itertools.batched(video_ids, n)` with explicit fuel (structural
recursion on the fuel; the fuel-exhausted branch is unreachable when the fuel
is the list length and `n ≥ 1`, as at the only call site, `n = 50`). -/
def batchedGo (n : Nat) : Nat → List String → List (List String)
  | _, [] => []
  | 0, rest => [rest]
  | fuel + 1, x :: xs => ((x :: xs).take n) :: batchedGo n fuel ((x :: xs).drop n)

/-- `itertools.batched(video_ids, n)`: split the input into consecutive
batches of size `n` (last batch possibly shorter). -/
def batched (n : Nat) (video_ids : List String) : List (List String) :=
  batchedGo n video_ids.length video_ids

/-- `videos.update(items)` on a Python `set[VideoItem]`: each item is added
unless an equal item is already present.  The set is modelled as an
insertion-ordered duplicate-free list; its `len` is the list length. -/
def setUpdate (s : List VideoItem) (items : List VideoItem) : List VideoItem :=
  items.foldl (fun acc it => if it ∈ acc then acc else acc ++ [it]) s

/-- The accumulation loop of `get_videos_info_from_api`
(src/youtube/youtube_api.py): for each batch of 50 ids one request is issued
and the items of its validated (possibly multi-page) response are added to
the `videos` set.  The remote API is modelled by the oracle
`api : id → Option VideoItem`; a batch's response items are the resolutions
of its ids. -/
def resolveVideosSet (api : String → Option VideoItem)
    (video_ids : List String) : List VideoItem :=
  (batched 50 video_ids).foldl
    (fun videos batch_ids => setUpdate videos (batch_ids.filterMap api)) []

/-- `get_videos_info_from_api` (src/youtube/youtube_api.py): after the
batched fetch loop, `if len(videos) != len(video_ids)` the function logs and
raises `ResourceWarning(msg)` (a warning-class exception, modelled as the
error message); otherwise it returns `set(videos)`. -/
def get_videos_info_from_api (api : String → Option VideoItem)
    (video_ids : List String) : Except String (List VideoItem) :=
  let videos := resolveVideosSet api video_ids
  if videos.length ≠ video_ids.length then
    .error ("Len output result: " ++ toString videos.length ++
      ", len input vid ids: " ++ toString video_ids.length)
  else
    .ok videos

lemma dequeExtend_nil (cap : Nat) (d : List String) :
    dequeExtend cap d [] = d := rfl

lemma dequeExtend_cons (cap : Nat) (d : List String) (x : String)
    (xs : List String) :
    dequeExtend cap d (x :: xs) = dequeExtend cap (dequePush cap d x) xs := rfl

lemma dequeExtend_eq_drop (cap : Nat) :
    ∀ (xs d : List String), d.length ≤ cap →
      dequeExtend cap d xs = (d ++ xs).drop (d.length + xs.length - cap) := by
  intro xs
  induction xs with
  | nil =>
    intro d hd
    simp [dequeExtend_nil, Nat.sub_eq_zero_of_le hd]
  | cons x xs ih =>
    intro d hd
    rw [dequeExtend_cons]
    by_cases h1 : d.length + 1 ≤ cap
    · have hpush : dequePush cap d x = d ++ [x] := by
        simp only [dequePush, List.length_append, List.length_singleton]
        rw [if_neg (by omega)]
      rw [hpush, ih (d ++ [x]) (by simp; omega)]
      have harith : (d ++ [x]).length + xs.length - cap =
          d.length + (x :: xs).length - cap := by
        simp
        omega
      rw [harith, List.append_assoc, List.singleton_append]
    · have hcap : d.length = cap := by omega
      have hpush : dequePush cap d x = (d ++ [x]).tail := by
        simp only [dequePush, List.length_append, List.length_singleton]
        rw [if_pos (by omega)]
      have htail_len : ((d ++ [x]).tail).length ≤ cap := by
        simp [List.length_tail]
        omega
      rw [hpush, ih _ htail_len]
      have hne : d ++ [x] ≠ [] := by simp
      rw [← List.tail_append_of_ne_nil hne]
      have harith : ((d ++ [x]).tail).length + xs.length - cap = xs.length := by
        simp [List.length_tail]
        omega
      rw [harith]
      have harith2 : d.length + (x :: xs).length - cap = xs.length + 1 := by
        simp
        omega
      rw [harith2]
      rw [← List.drop_one (d ++ [x] ++ xs), List.drop_drop, List.append_assoc,
        List.singleton_append, Nat.add_comm]

lemma dequeExtend_length_le (cap : Nat) (d xs : List String)
    (hd : d.length ≤ cap) : (dequeExtend cap d xs).length ≤ cap := by
  rw [dequeExtend_eq_drop cap xs d hd]
  simp [List.length_drop]
  omega

/-- C6: for every rolling-window state and every appended batch, if the
combined length exceeds the capacity then the resulting window holds exactly
`capacity` ids, namely the most recently appended ones (the suffix of old
contents followed by the batch) with the oldest evicted first; and the window
length never exceeds the capacity after any append or any load. -/
theorem c6_rolling_window_eviction (cap : Nat) (d xs : List String)
    (hlen : d.length ≤ cap) (hover : cap < d.length + xs.length) :
    (dequeExtend cap d xs).length = cap ∧
    dequeExtend cap d xs = (d ++ xs).drop (d.length + xs.length - cap) ∧
    (∀ ys : List String, (dequeExtend cap d ys).length ≤ cap) ∧
    (∀ (stored : Option (List String)) (rss_len : Nat),
      (load_rss_deque_from_db stored rss_len).length ≤ rss_len) := by
  refine ⟨?_, dequeExtend_eq_drop cap xs d hlen, fun ys =>
    dequeExtend_length_le cap d ys hlen, ?_⟩
  · rw [dequeExtend_eq_drop cap xs d hlen]
    simp [List.length_drop]
    omega
  · intro stored rss_len
    match stored with
    | none => simp [load_rss_deque_from_db]
    | some ids =>
      simpa [load_rss_deque_from_db] using
        dequeExtend_length_le rss_len [] ids (by simp)

/-- Witness for C6 at the spec's own example: capacity 3, existing window
[a, b, c], appended batch [d, e]; the result is [c, d, e]. -/
theorem c6_rolling_window_eviction_witness :
    (["a", "b", "c"] : List String).length ≤ 3 ∧
    3 < (["a", "b", "c"] : List String).length +
      (["d", "e"] : List String).length ∧
    ((dequeExtend 3 ["a", "b", "c"] ["d", "e"]).length = 3 ∧
      dequeExtend 3 ["a", "b", "c"] ["d", "e"] =
        ((["a", "b", "c"] : List String) ++ ["d", "e"]).drop
          ((["a", "b", "c"] : List String).length +
            (["d", "e"] : List String).length - 3) ∧
      (∀ ys : List String, (dequeExtend 3 ["a", "b", "c"] ys).length ≤ 3) ∧
      (∀ (stored : Option (List String)) (rss_len : Nat),
        (load_rss_deque_from_db stored rss_len).length ≤ rss_len)) ∧
    dequeExtend 3 ["a", "b", "c"] ["d", "e"] = ["c", "d", "e"] :=
  ⟨by decide, by decide,
    c6_rolling_window_eviction 3 ["a", "b", "c"] ["d", "e"] (by decide)
      (by decide),
    by decide⟩

/-- C7: persisting a window whose length is at most the configured capacity
and then loading it yields the identical sequence of ids. -/
theorem c7_save_load_identity (rss_deque : List String) (rss_len : Nat)
    (h : rss_deque.length ≤ rss_len) :
    load_rss_deque_from_db (save_rss_deque_to_db rss_deque) rss_len =
      rss_deque := by
  simp only [save_rss_deque_to_db, load_rss_deque_from_db]
  rw [dequeExtend_eq_drop rss_len rss_deque [] (by simp)]
  simp [Nat.sub_eq_zero_of_le h]

/-- Witness for C7: a two-element window and the default capacity 40. -/
theorem c7_save_load_identity_witness :
    (["a", "b"] : List String).length ≤ 40 ∧
    load_rss_deque_from_db (save_rss_deque_to_db ["a", "b"]) 40 = ["a", "b"] :=
  ⟨by decide, c7_save_load_identity ["a", "b"] 40 (by decide)⟩

/-- C1: every id returned by the all-channels diff comes from the fetched
feed of some channel in the requested set and is absent from that channel's
last-20-known-ids read from storage; in particular no id originates from a
channel outside the set. -/
theorem c1_diff_returns_only_unknown_ids_of_channel_set
    (feed : String → Except RequestError (List RssEntry))
    (videos : List Video) (channel_ids : List String) (x : String)
    (hx : x ∈ (_get_new_video_ids_for_all_channels feed videos channel_ids).1) :
    ∃ cid ∈ channel_ids, ∃ entries,
      feed cid = Except.ok entries ∧
      x ∈ _get_video_ids_from_rss entries ∧
      x ∉ read_last_video_ids_for_channel_from_db videos cid 20 := by
  simp only [_get_new_video_ids_for_all_channels, collectResults_eq] at hx
  rw [List.mem_flatMap] at hx
  obtain ⟨r, hr, hxr⟩ := hx
  simp only [taskResults, List.mem_map] at hr
  obtain ⟨cid, hcid, hrc⟩ := hr
  refine ⟨cid, hcid, ?_⟩
  cases hf : feed cid with
  | error e =>
    rw [_get_channel_new_video_ids, hf] at hrc
    rw [← hrc] at hxr
    simp [okIds] at hxr
  | ok entries =>
    rw [_get_channel_new_video_ids, hf] at hrc
    rw [← hrc] at hxr
    simp only [okIds, List.mem_filter, List.mem_dedup,
      decide_eq_true_eq] at hxr
    exact ⟨entries, rfl, hxr.1, hxr.2⟩

/-- Witness for C1: one subscribed channel whose feed holds v9 and v2, with
v2 already among the stored ids; the diff returns v9, which indeed stems from
the feed of a channel in the set and is not among the last known ids. -/
theorem c1_diff_returns_only_unknown_ids_of_channel_set_witness :
    ("v9" ∈ (_get_new_video_ids_for_all_channels
        (fun c => if c == "c1" then Except.ok [⟨"v9"⟩, ⟨"v2"⟩]
          else Except.error ⟨"down"⟩)
        [⟨"v2", "c1", 5⟩] ["c1"]).1) ∧
    ∃ cid ∈ ["c1"], ∃ entries,
      (fun c => if c == "c1" then Except.ok [(⟨"v9"⟩ : RssEntry), ⟨"v2"⟩]
        else Except.error (⟨"down"⟩ : RequestError)) cid = Except.ok entries ∧
      "v9" ∈ _get_video_ids_from_rss entries ∧
      "v9" ∉ read_last_video_ids_for_channel_from_db [⟨"v2", "c1", 5⟩] cid 20 :=
  ⟨by decide,
    c1_diff_returns_only_unknown_ids_of_channel_set
      (fun c => if c == "c1" then Except.ok [⟨"v9"⟩, ⟨"v2"⟩]
        else Except.error ⟨"down"⟩)
      [⟨"v2", "c1", 5⟩] ["c1"] "v9" (by decide)⟩

lemma taskResults_all_failed_filterMap_length
    (feed : String → Except RequestError (List RssEntry)) (videos : List Video) :
    ∀ channel_ids : List String,
      (∀ cid ∈ channel_ids, ∃ e, feed cid = Except.error e) →
      ((taskResults feed videos channel_ids).filterMap errOf).length =
        channel_ids.length := by
  intro channel_ids
  induction channel_ids with
  | nil => intro _; simp [taskResults]
  | cons c cs ih =>
    intro hall
    obtain ⟨e, he⟩ := hall c (List.mem_cons_self c cs)
    have hcs := ih (fun cid hcid => hall cid (List.mem_cons_of_mem c hcid))
    have hhead : taskResults feed videos (c :: cs) =
        TaskResult.requestError e :: taskResults feed videos cs := by
      simp [taskResults, _get_channel_new_video_ids, he]
    rw [hhead, List.filterMap_cons]
    simp [errOf, hcs]

lemma taskResults_all_failed_flatMap_nil
    (feed : String → Except RequestError (List RssEntry)) (videos : List Video)
    (channel_ids : List String)
    (hall : ∀ cid ∈ channel_ids, ∃ e, feed cid = Except.error e) :
    (taskResults feed videos channel_ids).flatMap okIds = [] := by
  rw [List.eq_nil_iff_forall_not_mem]
  intro x hx
  rw [List.mem_flatMap] at hx
  obtain ⟨r, hr, hxr⟩ := hx
  simp only [taskResults, List.mem_map] at hr
  obtain ⟨cid, hcid, hrc⟩ := hr
  obtain ⟨e, he⟩ := hall cid hcid
  rw [_get_channel_new_video_ids, he] at hrc
  rw [← hrc] at hxr
  simp [okIds] at hxr

/-- C2: if every per-channel task fails with a RequestError, the all-channels
diff returns the empty id collection, the total-outage condition is logged
(second component), and the aggregation returns normally rather than
raising. -/
theorem c2_total_outage_returns_empty_and_logs
    (feed : String → Except RequestError (List RssEntry))
    (videos : List Video) (channel_ids : List String)
    (hall : ∀ cid ∈ channel_ids, ∃ e, feed cid = Except.error e) :
    _get_new_video_ids_for_all_channels feed videos channel_ids = ([], true) ∧
    aggregateOutcomes (taskResults feed videos channel_ids) =
      Except.ok [] := by
  have hnil := taskResults_all_failed_flatMap_nil feed videos channel_ids hall
  have hlen := taskResults_all_failed_filterMap_length feed videos channel_ids
    hall
  constructor
  · simp only [_get_new_video_ids_for_all_channels, collectResults_eq,
      _check_if_all_requests_failed, hnil, Prod.mk.injEq]
    refine ⟨trivial, ?_⟩
    rw [hlen]
    simp [taskResults]
  · simp [aggregateOutcomes, collectResults_eq, hnil]

/-- Witness for C2: two channels, both of whose feed fetches fail. -/
theorem c2_total_outage_returns_empty_and_logs_witness :
    (∀ cid ∈ ["c1", "c2"], ∃ e,
      (fun _ : String =>
        (Except.error ⟨"down"⟩ : Except RequestError (List RssEntry))) cid =
        Except.error e) ∧
    _get_new_video_ids_for_all_channels
      (fun _ => Except.error ⟨"down"⟩) [] ["c1", "c2"] = ([], true) :=
  ⟨fun _ _ => ⟨⟨"down"⟩, rfl⟩,
    (c2_total_outage_returns_empty_and_logs
      (fun _ => Except.error ⟨"down"⟩) [] ["c1", "c2"]
      (fun _ _ => ⟨⟨"down"⟩, rfl⟩)).1⟩

/-- C3: when some but not all per-channel tasks fail with a RequestError,
every id produced by a succeeding channel still appears in the all-channels
diff, and conversely every returned id was produced by some succeeding
channel (failing channels contribute nothing and do not abort the batch). -/
theorem c3_partial_failure_keeps_succeeding_ids
    (feed : String → Except RequestError (List RssEntry))
    (videos : List Video) (channel_ids : List String)
    (_hfail : ∃ cid ∈ channel_ids, ∃ e, feed cid = Except.error e)
    (cid : String) (hc : cid ∈ channel_ids) (ids : List String)
    (hok : _get_channel_new_video_ids feed videos cid = Except.ok ids) :
    (∀ x ∈ ids,
      x ∈ (_get_new_video_ids_for_all_channels feed videos channel_ids).1) ∧
    (∀ y ∈ (_get_new_video_ids_for_all_channels feed videos channel_ids).1,
      ∃ cid2 ∈ channel_ids, ∃ ids2,
        _get_channel_new_video_ids feed videos cid2 = Except.ok ids2 ∧
        y ∈ ids2) := by
  constructor
  · intro x hx
    simp only [_get_new_video_ids_for_all_channels, collectResults_eq]
    rw [List.mem_flatMap]
    refine ⟨TaskResult.ok ids, ?_, hx⟩
    simp only [taskResults, List.mem_map]
    exact ⟨cid, hc, by rw [hok]⟩
  · intro y hy
    simp only [_get_new_video_ids_for_all_channels, collectResults_eq] at hy
    rw [List.mem_flatMap] at hy
    obtain ⟨r, hr, hyr⟩ := hy
    simp only [taskResults, List.mem_map] at hr
    obtain ⟨cid2, hcid2, hrc⟩ := hr
    cases hres : _get_channel_new_video_ids feed videos cid2 with
    | error e =>
      rw [hres] at hrc
      rw [← hrc] at hyr
      simp [okIds] at hyr
    | ok ids2 =>
      rw [hres] at hrc
      rw [← hrc] at hyr
      exact ⟨cid2, hcid2, ids2, hres, hyr⟩

/-- Witness for C3, the spec's end-to-end scenario: channels cA and cB, cA's
feed holds the unknown id v1, cB's fetch raises a connection error; v1 is
still returned. -/
theorem c3_partial_failure_keeps_succeeding_ids_witness :
    (∃ cid ∈ ["cA", "cB"], ∃ e,
      (fun c => if c == "cA" then Except.ok [(⟨"v1"⟩ : RssEntry)]
        else Except.error (⟨"conn"⟩ : RequestError)) cid = Except.error e) ∧
    "cA" ∈ ["cA", "cB"] ∧
    _get_channel_new_video_ids
      (fun c => if c == "cA" then Except.ok [⟨"v1"⟩]
        else Except.error ⟨"conn"⟩) [] "cA" = Except.ok ["v1"] ∧
    "v1" ∈ (_get_new_video_ids_for_all_channels
      (fun c => if c == "cA" then Except.ok [⟨"v1"⟩]
        else Except.error ⟨"conn"⟩) [] ["cA", "cB"]).1 :=
  ⟨⟨"cB", by decide, ⟨"conn"⟩, rfl⟩, by decide, rfl,
    (c3_partial_failure_keeps_succeeding_ids
      (fun c => if c == "cA" then Except.ok [⟨"v1"⟩]
        else Except.error ⟨"conn"⟩) [] ["cA", "cB"]
      ⟨"cB", by decide, ⟨"conn"⟩, rfl⟩ "cA" (by decide) ["v1"] rfl).1
      "v1" (by decide)⟩

/-- Counterexample to C4 as stated: a task outcome of an exception type other
than RequestError does not make the aggregation raise — with
`return_exceptions=True` the exception arrives as a value, the loop matches
neither `isinstance(res, RequestError)` nor `isinstance(res, tuple)`, and the
function returns normally with the remaining ids. -/
theorem c4_counterexample :
    aggregateOutcomes [TaskResult.otherError] = Except.ok [] ∧
    ¬ ∃ e : Unit, aggregateOutcomes [TaskResult.otherError] =
      Except.error e := by
  constructor
  · rfl
  · rintro ⟨e, h⟩
    exact nomatch h

/-- C4 (amended): in the aggregation over per-channel task outcomes, every
RequestError is recorded in the failure list and absorbed, while an exception
of any other type is silently ignored: it contributes nothing and the
aggregation still returns normally — it never propagates to the caller. -/
theorem c4_amended_other_exceptions_silently_ignored
    (rs rs1 rs2 : List TaskResult) :
    (collectResults rs).2 = rs.filterMap errOf ∧
    aggregateOutcomes rs = Except.ok (rs.flatMap okIds) ∧
    aggregateOutcomes (rs1 ++ TaskResult.otherError :: rs2) =
      aggregateOutcomes (rs1 ++ rs2) := by
  refine ⟨by rw [collectResults_eq], by
    rw [aggregateOutcomes, collectResults_eq], ?_⟩
  simp [aggregateOutcomes, collectResults_eq, okIds]

/-- Counterexample to C5 as stated: a feed document whose entries repeat the
same video id yields a tuple in which that id appears twice — the extraction
performs no deduplication. -/
theorem c5_counterexample :
    ¬ (_get_video_ids_from_rss [⟨"a"⟩, ⟨"a"⟩]).Nodup := by decide

/-- C5 (amended): the id extraction returns one id per entry of the document
in document order, preserving duplicates (no deduplication is performed). -/
theorem c5_amended_ids_in_document_order_with_duplicates
    (rss_feed : List RssEntry) :
    (_get_video_ids_from_rss rss_feed).length = rss_feed.length ∧
    ∀ i : Nat, (_get_video_ids_from_rss rss_feed)[i]? =
      (rss_feed[i]?).map (fun e => e.videoId) := by
  constructor
  · simp [_get_video_ids_from_rss]
  · intro i
    simp [_get_video_ids_from_rss]

lemma findByChannel_append (s1 s2 : List Subscription) (c : String) :
    findByChannel (s1 ++ s2) c =
      (findByChannel s1 c).or (findByChannel s2 c) := by
  simp [findByChannel, List.find?_append]

lemma save_subscriptions_cons (store : List Subscription) (sub : Subscription)
    (subs : List Subscription) :
    save_subscriptions_to_db store (sub :: subs) =
      save_subscriptions_to_db (upsertSetOnInsert store sub) subs := rfl

lemma save_subscriptions_frame (subs : List Subscription) :
    ∀ store, ∃ tail, save_subscriptions_to_db store subs = store ++ tail := by
  induction subs with
  | nil => intro store; exact ⟨[], by simp [save_subscriptions_to_db]⟩
  | cons sub subs ih =>
    intro store
    rw [save_subscriptions_cons]
    by_cases h : store.any (fun d => d.channelId == sub.channelId)
    · rw [upsertSetOnInsert, if_pos h]
      exact ih store
    · rw [upsertSetOnInsert, if_neg h]
      obtain ⟨tail, htail⟩ := ih (store ++ [sub])
      exact ⟨[sub] ++ tail, by rw [htail, List.append_assoc]⟩

/-- C9: saving subscriptions is insert-if-absent keyed by channel id.  The
stored document looked up for a channel id after the save is the previously
stored one when present (never overwritten), otherwise the first saved
subscription carrying that id; and the save only ever appends documents to
the store. -/
theorem c9_subscriptions_insert_if_absent
    (store subs : List Subscription) (c : String) :
    findByChannel (save_subscriptions_to_db store subs) c =
      (findByChannel store c).or
        (subs.find? (fun s => s.channelId == c)) ∧
    ∃ tail, save_subscriptions_to_db store subs = store ++ tail := by
  refine ⟨?_, save_subscriptions_frame subs store⟩
  induction subs generalizing store with
  | nil =>
    cases hf : findByChannel store c <;>
      simp [save_subscriptions_to_db, hf, Option.or]
  | cons sub subs ih =>
    rw [save_subscriptions_cons, ih (upsertSetOnInsert store sub)]
    rw [upsertSetOnInsert]
    by_cases hany : store.any (fun d => d.channelId == sub.channelId)
    · rw [if_pos hany]
      cases hf : findByChannel store c with
      | some d => simp [hf, Option.or]
      | none =>
        have hne : ¬ (sub.channelId == c) = true := by
          rw [List.any_eq_true] at hany
          obtain ⟨x, hx, hxc⟩ := hany
          rw [findByChannel, List.find?_eq_none] at hf
          intro hcon
          rw [beq_iff_eq] at hxc hcon
          exact hf x hx (by rw [hxc, hcon, beq_self_eq_true])
        simp only [Option.none_or]
        rw [List.find?_cons_of_neg subs hne]
    · rw [if_neg hany, findByChannel_append]
      cases hf : findByChannel store c with
      | some d => simp [hf, Option.or]
      | none =>
        simp only [Option.none_or]
        by_cases hs : (sub.channelId == c) = true
        · rw [List.find?_cons_of_pos subs hs]
          have hsp : sub.channelId = c := beq_iff_eq.mp hs
          simp [findByChannel, hsp, Option.or]
        · rw [List.find?_cons_of_neg subs hs]
          have hsp : ¬ sub.channelId = c := by simpa [beq_iff_eq] using hs
          simp [findByChannel, hsp, Option.or]

lemma batchedGo_subset (n : Nat) :
    ∀ (fuel : Nat) (l : List String), ∀ b ∈ batchedGo n fuel l, b ⊆ l := by
  intro fuel
  induction fuel with
  | zero =>
    intro l b hb
    cases l with
    | nil => simp [batchedGo] at hb
    | cons x xs =>
      simp only [batchedGo, List.mem_singleton] at hb
      rw [hb]
      exact List.Subset.refl _
  | succ fuel ih =>
    intro l b hb
    cases l with
    | nil => simp [batchedGo] at hb
    | cons x xs =>
      simp only [batchedGo, List.mem_cons] at hb
      cases hb with
      | inl h => rw [h]; exact List.take_subset n (x :: xs)
      | inr h =>
        exact (ih ((x :: xs).drop n) b h).trans (List.drop_subset n (x :: xs))

lemma batched_subset (n : Nat) (l : List String) :
    ∀ b ∈ batched n l, b ⊆ l :=
  batchedGo_subset n l.length l

lemma setUpdate_cons (s : List VideoItem) (it : VideoItem)
    (items : List VideoItem) :
    setUpdate s (it :: items) =
      setUpdate (if it ∈ s then s else s ++ [it]) items := rfl

lemma setUpdate_nodup (items : List VideoItem) :
    ∀ s : List VideoItem, s.Nodup → (setUpdate s items).Nodup := by
  induction items with
  | nil => intro s hs; exact hs
  | cons it items ih =>
    intro s hs
    rw [setUpdate_cons]
    apply ih
    by_cases h : it ∈ s
    · simpa [h] using hs
    · simp [h, List.nodup_append, hs, List.disjoint_singleton]

lemma setUpdate_mem (items : List VideoItem) :
    ∀ (s : List VideoItem) (x : VideoItem),
      x ∈ setUpdate s items ↔ x ∈ s ∨ x ∈ items := by
  induction items with
  | nil => intro s x; simp [setUpdate]
  | cons it items ih =>
    intro s x
    rw [setUpdate_cons, ih]
    by_cases h : it ∈ s
    · simp only [if_pos h, List.mem_cons]
      constructor
      · rintro (hx | hx)
        · exact Or.inl hx
        · exact Or.inr (Or.inr hx)
      · rintro (hx | hx | hx)
        · exact Or.inl hx
        · rw [hx]; exact Or.inl h
        · exact Or.inr hx
    · simp only [if_neg h, List.mem_append, List.mem_singleton, List.mem_cons]
      tauto

lemma resolveVideosSet_nodup (api : String → Option VideoItem)
    (video_ids : List String) : (resolveVideosSet api video_ids).Nodup := by
  have hgen : ∀ (bs : List (List String)) (s : List VideoItem), s.Nodup →
      (bs.foldl (fun videos batch_ids =>
        setUpdate videos (batch_ids.filterMap api)) s).Nodup := by
    intro bs
    induction bs with
    | nil => intro s hs; exact hs
    | cons b bs ih =>
      intro s hs
      exact ih _ (setUpdate_nodup _ s hs)
  exact hgen (batched 50 video_ids) [] List.nodup_nil

lemma resolveVideosSet_mem (api : String → Option VideoItem)
    (video_ids : List String) (it : VideoItem)
    (hmem : it ∈ resolveVideosSet api video_ids) :
    ∃ vid ∈ video_ids, api vid = some it := by
  have hgen : ∀ (bs : List (List String)) (s : List VideoItem),
      it ∈ bs.foldl (fun videos batch_ids =>
        setUpdate videos (batch_ids.filterMap api)) s →
      it ∈ s ∨ ∃ b ∈ bs, it ∈ b.filterMap api := by
    intro bs
    induction bs with
    | nil => intro s hx; exact Or.inl hx
    | cons b bs ih =>
      intro s hx
      rcases ih _ hx with hx2 | ⟨b2, hb2, hit⟩
      · rw [setUpdate_mem] at hx2
        rcases hx2 with hx3 | hx3
        · exact Or.inl hx3
        · exact Or.inr ⟨b, List.mem_cons_self b bs, hx3⟩
      · exact Or.inr ⟨b2, List.mem_cons_of_mem b hb2, hit⟩
  rcases hgen (batched 50 video_ids) [] hmem with hx | ⟨b, hb, hit⟩
  · simp at hx
  · rw [List.mem_filterMap] at hit
    obtain ⟨vid, hvid, hapi⟩ := hit
    exact ⟨vid, batched_subset 50 video_ids b hb hvid, hapi⟩

/-- C8: the video info resolver fails with its warning-class error exactly
when the number of resolved items differs from the number of requested ids,
and returns the resolved set when the counts agree. -/
theorem c8_count_mismatch_is_hard_error
    (api : String → Option VideoItem) (video_ids : List String) :
    ((∃ msg, get_videos_info_from_api api video_ids = Except.error msg) ↔
      (resolveVideosSet api video_ids).length ≠ video_ids.length) ∧
    ((resolveVideosSet api video_ids).length = video_ids.length →
      get_videos_info_from_api api video_ids =
        Except.ok (resolveVideosSet api video_ids)) := by
  unfold get_videos_info_from_api
  by_cases h : (resolveVideosSet api video_ids).length = video_ids.length <;>
    simp [h]

/-- Witness for C8: two distinct ids, both resolving; the counts agree and
the resolved set is returned. -/
theorem c8_count_mismatch_is_hard_error_witness :
    (resolveVideosSet (fun s => some ⟨s, "m"⟩) ["a", "b"]).length =
      (["a", "b"] : List String).length ∧
    get_videos_info_from_api (fun s => some ⟨s, "m"⟩) ["a", "b"] =
      Except.ok (resolveVideosSet (fun s => some ⟨s, "m"⟩) ["a", "b"]) :=
  ⟨by decide,
    (c8_count_mismatch_is_hard_error (fun s => some ⟨s, "m"⟩) ["a", "b"]).2
      (by decide)⟩

/-- C10: an input id sequence containing a duplicate always trips the
count-mismatch error, even when every requested id resolves (the API oracle
resolving each id to an item carrying that id): the resolved items land in a
set, whose size is compared against the raw input length. -/
theorem c10_duplicate_input_ids_force_mismatch_error
    (api : String → Option VideoItem) (video_ids : List String)
    (hdup : ¬ video_ids.Nodup)
    (_hres : ∀ vid ∈ video_ids, (api vid).isSome)
    (hid : ∀ s it, api s = some it → it.id = s) :
    ∃ msg, get_videos_info_from_api api video_ids = Except.error msg := by
  have hnodup := resolveVideosSet_nodup api video_ids
  have hinj : ∀ x ∈ resolveVideosSet api video_ids,
      ∀ y ∈ resolveVideosSet api video_ids, x.id = y.id → x = y := by
    intro x hx y hy hxy
    obtain ⟨sx, _, hax⟩ := resolveVideosSet_mem api video_ids x hx
    obtain ⟨sy, _, hay⟩ := resolveVideosSet_mem api video_ids y hy
    have hsx := hid sx x hax
    have hsy := hid sy y hay
    have hss : sx = sy := by rw [← hsx, ← hsy, hxy]
    rw [hss, hay] at hax
    exact (Option.some_inj.mp hax).symm
  have hmap_nodup : ((resolveVideosSet api video_ids).map VideoItem.id).Nodup :=
    hnodup.map_on hinj
  have hmap_sub : ∀ y ∈ (resolveVideosSet api video_ids).map VideoItem.id,
      y ∈ video_ids := by
    intro y hy
    rw [List.mem_map] at hy
    obtain ⟨it, hit, hity⟩ := hy
    obtain ⟨vid, hvid, hapi⟩ := resolveVideosSet_mem api video_ids it hit
    rw [← hity, hid vid it hapi]
    exact hvid
  have hle : (resolveVideosSet api video_ids).length ≤
      video_ids.dedup.length := by
    have h1 : ((resolveVideosSet api video_ids).map VideoItem.id).length =
        (resolveVideosSet api video_ids).length := List.length_map _ _
    have h2 : ((resolveVideosSet api video_ids).map VideoItem.id).toFinset.card
        = ((resolveVideosSet api video_ids).map VideoItem.id).length :=
      List.toFinset_card_of_nodup hmap_nodup
    have h3 : ((resolveVideosSet api video_ids).map VideoItem.id).toFinset ⊆
        video_ids.toFinset := by
      intro y hy
      rw [List.mem_toFinset] at hy ⊢
      exact hmap_sub y hy
    have h4 := Finset.card_le_card h3
    rw [h2, h1, List.card_toFinset] at h4
    exact h4
  have hlt : video_ids.dedup.length < video_ids.length := by
    have hsub := List.dedup_sublist video_ids
    have hlen := hsub.length_le
    rcases Nat.lt_or_ge video_ids.dedup.length video_ids.length with h | h
    · exact h
    · exfalso
      have heq : video_ids.dedup = video_ids :=
        hsub.eq_of_length (Nat.le_antisymm hlen h)
      exact hdup (heq ▸ List.nodup_dedup video_ids)
  have hne : (resolveVideosSet api video_ids).length ≠ video_ids.length := by
    omega
  refine ⟨"Len output result: " ++
    toString (resolveVideosSet api video_ids).length ++
    ", len input vid ids: " ++ toString video_ids.length, ?_⟩
  simp only [get_videos_info_from_api]
  rw [if_pos hne]

/-- Witness for C10: the id a is requested twice and resolves on every
request, yet the resolver fails with the count-mismatch error. -/
theorem c10_duplicate_input_ids_force_mismatch_error_witness :
    (¬ (["a", "a"] : List String).Nodup) ∧
    (∀ vid ∈ (["a", "a"] : List String),
      ((fun s => some (⟨s, "m"⟩ : VideoItem)) vid).isSome) ∧
    (∀ (s : String) (it : VideoItem),
      (fun s => some (⟨s, "m"⟩ : VideoItem)) s = some it → it.id = s) ∧
    ∃ msg, get_videos_info_from_api (fun s => some ⟨s, "m"⟩) ["a", "a"] =
      Except.error msg :=
  ⟨by decide, fun _ _ => rfl,
    fun s it h => by injection h with h2; rw [← h2],
    c10_duplicate_input_ids_force_mismatch_error (fun s => some ⟨s, "m"⟩)
      ["a", "a"] (by decide) (fun _ _ => rfl)
      (fun s it h => by injection h with h2; rw [← h2])⟩

end YoutubeRss
